import Mathlib

/-!
Verification development for the API gateway's request-dispatch subsystem
of the sandbox-platform repository: the circuit breaker
(`app/core/circuit_breaker.py`), the proxy (`app/services/proxy.py`) and
service discovery (`app/services/discovery.py`), embedded shallowly.

Python `time.time()` floats are modelled as `Int` timestamps passed in
explicitly; `async` methods are modelled as pure state transformers (the
per-breaker lock serialises each call, so one `call` is one atomic step);
the protected operation is modelled by its outcome (`Except`).
-/

namespace SandboxPlatform

/-! ### Association-list model of Python `dict` (insertion-ordered, unique keys) -/

def lookupA {β : Type} (l : List (String × β)) (k : String) : Option β :=
  match l with
  | [] => none
  | p :: rest => if p.fst = k then some p.snd else lookupA rest k

def lookupD {β : Type} (l : List (String × β)) (k : String) (d : β) : β :=
  (lookupA l k).getD d

def setA {β : Type} (l : List (String × β)) (k : String) (v : β) : List (String × β) :=
  match l with
  | [] => [(k, v)]
  | p :: rest => if p.fst = k then (k, v) :: rest else p :: setA rest k v

def popA {β : Type} (l : List (String × β)) (k : String) : List (String × β) :=
  l.filter (fun p => decide (p.fst ≠ k))

def containsKey {β : Type} (l : List (String × β)) (k : String) : Bool :=
  l.any (fun p => decide (p.fst = k))

/-! ### Circuit breaker (`app/core/circuit_breaker.py`) -/

inductive CircuitBreakerState where
  | CLOSED
  | OPEN
  | HALF_OPEN
deriving DecidableEq, Repr

structure CircuitBreakerStats where
  failure_count : Nat
  success_count : Nat
  last_failure_time : Int
  last_success_time : Int
  total_requests : Nat
deriving DecidableEq, Repr

/-- `CircuitBreakerStats()` with the dataclass defaults. -/
def CircuitBreakerStats.init : CircuitBreakerStats :=
  { failure_count := 0, success_count := 0, last_failure_time := 0
    last_success_time := 0, total_requests := 0 }

structure CircuitBreaker where
  failure_threshold : Nat
  recovery_timeout : Int
  expected_recovery_time : Int
  name : String
  state : CircuitBreakerState
  stats : CircuitBreakerStats
deriving DecidableEq, Repr

/-- The outcome of `CircuitBreaker.call`: fast-rejected with
`CircuitBreakerOpenException` (operation never invoked), the operation's
return value, or the operation's exception re-raised after bookkeeping. -/
inductive CallOut (ε α : Type) where
  | rejected : CallOut ε α
  | returned : α → CallOut ε α
  | raised : ε → CallOut ε α
deriving DecidableEq, Repr

namespace CircuitBreaker

/-- `CircuitBreaker.__init__` with defaults, fresh state. -/
def mk0 (failure_threshold : Nat) (recovery_timeout expected_recovery_time : Int)
    (name : String) : CircuitBreaker :=
  { failure_threshold := failure_threshold, recovery_timeout := recovery_timeout
    expected_recovery_time := expected_recovery_time, name := name
    state := CircuitBreakerState.CLOSED, stats := CircuitBreakerStats.init }

/-- `CircuitBreaker._should_attempt_reset`. -/
def _should_attempt_reset (cb : CircuitBreaker) (now : Int) : Bool :=
  decide (cb.recovery_timeout ≤ now - cb.stats.last_failure_time)

/-- `CircuitBreaker._on_success`. -/
def _on_success (cb : CircuitBreaker) (now : Int) : CircuitBreaker :=
  let stats : CircuitBreakerStats :=
    { cb.stats with
      success_count := cb.stats.success_count + 1
      total_requests := cb.stats.total_requests + 1
      last_success_time := now }
  if cb.state = CircuitBreakerState.HALF_OPEN then
    { cb with state := CircuitBreakerState.CLOSED
              stats := { stats with failure_count := 0 } }
  else
    { cb with stats := stats }

/-- `CircuitBreaker._on_failure`. -/
def _on_failure (cb : CircuitBreaker) (now : Int) : CircuitBreaker :=
  let stats : CircuitBreakerStats :=
    { cb.stats with
      failure_count := cb.stats.failure_count + 1
      total_requests := cb.stats.total_requests + 1
      last_failure_time := now }
  if cb.failure_threshold ≤ stats.failure_count ∧ cb.state = CircuitBreakerState.CLOSED then
    { cb with state := CircuitBreakerState.OPEN, stats := stats }
  else
    { cb with stats := stats }

/-- The `try`/`except` body of `call` after the lock block: run the
operation, do the bookkeeping, return or re-raise.  The `Nat` component
counts invocations of the protected operation. -/
def callAttempt {ε α : Type} (cb : CircuitBreaker) (now : Int) (op : Except ε α) :
    CircuitBreaker × Nat × CallOut ε α :=
  match op with
  | Except.ok a => (_on_success cb now, 1, CallOut.returned a)
  | Except.error e => (_on_failure cb now, 1, CallOut.raised e)

/-- `CircuitBreaker.call`: the lock-protected state check, then the attempt.
`op` is the outcome the protected operation would produce if invoked. -/
def call {ε α : Type} (cb : CircuitBreaker) (now : Int) (op : Except ε α) :
    CircuitBreaker × Nat × CallOut ε α :=
  if cb.state = CircuitBreakerState.OPEN then
    if cb._should_attempt_reset now then
      callAttempt { cb with state := CircuitBreakerState.HALF_OPEN } now op
    else
      (cb, 0, CallOut.rejected)
  else
    callAttempt cb now op

/-- A sequence of calls whose protected operations all fail, one per
timestamp, threading the breaker state. -/
def failSeq {ε : Type} (e : ε) (cb : CircuitBreaker) (ts : List Int) : CircuitBreaker :=
  match ts with
  | [] => cb
  | t :: rest => failSeq e (call (α := Unit) cb t (Except.error e)).fst rest

end CircuitBreaker

/-! ### Proxy (`app/services/proxy.py`) -/

/-- `ServiceConfig` from `app/core/config.py`: the fields `proxy_request`
and `_make_request` read. -/
structure ServiceConfig where
  name : String
  url : String
  health_path : String
  timeout : Int
deriving DecidableEq, Repr

/-- Failure classes the backend HTTP call can raise
(`httpx.TimeoutException`, `httpx.ConnectError`, anything else). -/
inductive UpstreamExc where
  | timeout : UpstreamExc
  | connectError : UpstreamExc
  | other : String → UpstreamExc
deriving DecidableEq, Repr

/-- A backend HTTP response as observed by `_make_request`: any status
(including 4xx/5xx) together with its body. -/
structure BackendResponse where
  status_code : Nat
  content : String
deriving DecidableEq, Repr

/-- What `proxy_request` hands back to the HTTP layer: a proxied backend
response, or an `HTTPException(status_code, detail)`. -/
inductive ProxyResult where
  | response : Nat → String → ProxyResult
  | httpError : Nat → String → ProxyResult
deriving DecidableEq, Repr

/-- `ProxyService._make_request`: on a backend response (any status) wrap
status and body unchanged in a `Response`; on a raised exception record
metrics and re-raise. -/
def _make_request (backend : Except UpstreamExc BackendResponse) :
    Except UpstreamExc BackendResponse :=
  match backend with
  | Except.ok r => Except.ok { status_code := r.status_code, content := r.content }
  | Except.error e => Except.error e

/-- `ProxyService.proxy_request`: resolve the service config (absence is
404), execute `_make_request` through the service's circuit breaker, and
translate each failure class into a gateway `HTTPException`.  Returns the
result, the breaker afterwards, and how many backend attempts were made.
(The Python detail strings quote the service name; quotes are elided here.) -/
def proxy_request (services : List (String × ServiceConfig)) (service_name : String)
    (cb : CircuitBreaker) (now : Int) (backend : Except UpstreamExc BackendResponse) :
    ProxyResult × CircuitBreaker × Nat :=
  match lookupA services service_name with
  | none =>
      (ProxyResult.httpError 404 ("Service " ++ service_name ++ " not found"), cb, 0)
  | some _service_config =>
      let r := CircuitBreaker.call cb now (_make_request backend)
      match r.snd.snd with
      | CallOut.rejected =>
          (ProxyResult.httpError 503
            ("Service " ++ service_name ++ " is temporarily unavailable"), r.fst, r.snd.fst)
      | CallOut.returned resp =>
          (ProxyResult.response resp.status_code resp.content, r.fst, r.snd.fst)
      | CallOut.raised UpstreamExc.timeout =>
          (ProxyResult.httpError 504
            ("Service " ++ service_name ++ " request timeout"), r.fst, r.snd.fst)
      | CallOut.raised UpstreamExc.connectError =>
          (ProxyResult.httpError 503
            ("Service " ++ service_name ++ " is unavailable"), r.fst, r.snd.fst)
      | CallOut.raised (UpstreamExc.other msg) =>
          (ProxyResult.httpError 502 ("Bad gateway: " ++ msg), r.fst, r.snd.fst)

/-! ### Service discovery (`app/services/discovery.py`) -/

/-- `ServiceInstance` dataclass.  `response_time` floats are modelled as
`Int` (only their ordering matters to selection). -/
structure ServiceInstance where
  name : String
  url : String
  health_path : String
  last_health_check : Int
  is_healthy : Bool
  response_time : Int
  failure_count : Nat
deriving DecidableEq, Repr

/-- The mutable state of `ServiceDiscovery` relevant to instance
selection and health tracking. -/
structure ServiceDiscovery where
  services : List (String × List ServiceInstance)
  max_failures : Nat
  round_robin_counters : List (String × Nat)
deriving DecidableEq, Repr

namespace ServiceDiscovery

/-- `ServiceDiscovery._round_robin_selection`.  The source indexes
`instances[0]` (callers guarantee a non-empty list); an empty list maps to
`none` here where Python would raise `IndexError`. -/
def _round_robin_selection (sd : ServiceDiscovery) (instances : List ServiceInstance) :
    Option ServiceInstance × ServiceDiscovery :=
  match instances.head? with
  | none => (none, sd)
  | some first =>
      let service_name := first.name
      let c := lookupD sd.round_robin_counters service_name 0
      let index := c % instances.length
      (instances.get? index,
       { sd with round_robin_counters := setA sd.round_robin_counters service_name (c + 1) })

/-- `ServiceDiscovery._least_response_time_selection`: Python
`min(instances, key=...)`, which returns the first element attaining the
minimum.  Empty input maps to `none` where Python `min` would raise. -/
def _least_response_time_selection (instances : List ServiceInstance) :
    Option ServiceInstance :=
  match instances with
  | [] => none
  | x :: xs =>
      some (xs.foldl (fun acc i => if i.response_time < acc.response_time then i else acc) x)

/-- `ServiceDiscovery._random_selection`: `random.choice(instances)`,
modelled with the PRNG draw `rnd` supplied as an oracle. -/
def _random_selection (instances : List ServiceInstance) (rnd : Nat) :
    Option ServiceInstance :=
  instances.get? (rnd % instances.length)

/-- `ServiceDiscovery.get_service_instance`, with the configured
`settings.load_balancing_strategy` and the PRNG draw passed explicitly. -/
def get_service_instance (sd : ServiceDiscovery) (strategy : String) (rnd : Nat)
    (service_name : String) : Option ServiceInstance × ServiceDiscovery :=
  let instances := lookupD sd.services service_name []
  let healthy_instances := instances.filter (fun i => i.is_healthy)
  if healthy_instances.isEmpty then
    (instances.head?, sd)
  else if strategy = "round_robin" then
    sd._round_robin_selection healthy_instances
  else if strategy = "least_connections" then
    (_least_response_time_selection healthy_instances, sd)
  else if strategy = "random" then
    (_random_selection healthy_instances rnd, sd)
  else
    (healthy_instances.head?, sd)

/-- `n` consecutive `get_service_instance` lookups for one service,
threading the discovery state; returns the selections in order. -/
def getInstanceSeq (sd : ServiceDiscovery) (strategy : String) (rnd : Nat)
    (service_name : String) : Nat → List (Option ServiceInstance) × ServiceDiscovery
  | 0 => ([], sd)
  | n + 1 =>
      let r := sd.get_service_instance strategy rnd service_name
      let rest := getInstanceSeq r.snd strategy rnd service_name n
      (r.fst :: rest.fst, rest.snd)

end ServiceDiscovery

/-- Outcome of one health probe of an instance, as seen by
`_health_check_instance`: `proxy_service.health_check_service` reported
`"healthy"`, reported anything else, or the probe raised. -/
inductive ProbeResult where
  | healthy : ProbeResult
  | unhealthy : ProbeResult
  | exc : ProbeResult
deriving DecidableEq, Repr

/-- `ServiceDiscovery._health_check_instance` acting on one instance:
a healthy report marks the instance healthy and zeroes its failure
counter; any other report or an exception increments the counter and
marks the instance unhealthy once the counter reaches `max_failures`.
`now` is the probe completion time, `rt` the measured response time. -/
def _health_check_instance (max_failures : Nat) (inst : ServiceInstance)
    (now rt : Int) (result : ProbeResult) : ServiceInstance :=
  match result with
  | ProbeResult.healthy =>
      { inst with last_health_check := now, response_time := rt
                  is_healthy := true, failure_count := 0 }
  | ProbeResult.unhealthy =>
      let i := { inst with last_health_check := now, response_time := rt
                           failure_count := inst.failure_count + 1 }
      if max_failures ≤ i.failure_count then { i with is_healthy := false } else i
  | ProbeResult.exc =>
      let i := { inst with last_health_check := now
                           failure_count := inst.failure_count + 1 }
      if max_failures ≤ i.failure_count then { i with is_healthy := false } else i

/-- A sequence of probes applied to one instance, each with its outcome,
completion time and response time. -/
def probeSeq (max_failures : Nat) (inst : ServiceInstance)
    (ps : List (ProbeResult × Int × Int)) : ServiceInstance :=
  match ps with
  | [] => inst
  | p :: rest =>
      probeSeq max_failures (_health_check_instance max_failures inst p.snd.fst p.snd.snd p.fst) rest

/-! ### Proxy header preparation (`ProxyService._prepare_proxy_headers`) -/

/-- The hop-by-hop header list from the source. -/
def hop_by_hop_headers : List String :=
  ["connection", "keep-alive", "proxy-authenticate", "proxy-authorization",
   "te", "trailers", "transfer-encoding", "upgrade"]

/-- Python truthiness of an optional string (`None` and `""` are falsy). -/
def truthy : Option String → Bool
  | some t => decide (t ≠ "")
  | none => false

/-- Character-list spelling of `pattern.isPrefixOf s` (the kernel cannot
evaluate `String.startsWith`, so the model works on `String.data`). -/
def charsStartsWith : List Char → List Char → Bool
  | [], _ => true
  | _ :: _, [] => false
  | c :: cs, d :: ds => decide (c = d) && charsStartsWith cs ds

/-- `auth_header.startswith("Bearer ")` from the source, over the
underlying character lists. -/
def startsWithBearer (auth_header : String) : Bool :=
  charsStartsWith ("Bearer ".data) auth_header.data

/-- `auth_header.split(" ", 1)[1]` from the source when the header starts
with `"Bearer "` (7 characters): everything after the prefix. -/
def bearerToken (auth_header : String) : String :=
  String.mk (auth_header.data.drop 7)

/-- `ProxyService._prepare_proxy_headers`.  Inbound header keys are
lowercase (Starlette normalises them; its `.get` is case-insensitive, so
`request.headers.get("Authorization")` reads key `"authorization"`).
Inputs beyond the header dict: `request.client.host` when a client is
known, `request.url.scheme`, and the `request.state` attributes. -/
def _prepare_proxy_headers (inbound : List (String × String)) (client : Option String)
    (scheme : String) (request_id user_id bearer_token : Option String) :
    List (String × String) :=
  let headers := hop_by_hop_headers.foldl (fun h k => popA h k) inbound
  let headers := popA headers "content-length"
  let headers :=
    if client.isSome then setA headers "X-Forwarded-For" (client.getD "") else headers
  let headers := setA headers "X-Forwarded-Proto" scheme
  let headers := setA headers "X-Forwarded-Host" (lookupD inbound "host" "")
  let headers := if truthy request_id then setA headers "X-Request-ID" (request_id.getD "") else headers
  let headers := if truthy user_id then setA headers "X-User-Id" (user_id.getD "") else headers
  let token :=
    if truthy bearer_token then bearer_token
    else
      match lookupA inbound "authorization" with
      | some auth_header =>
          if startsWithBearer auth_header then some (bearerToken auth_header) else none
      | none => none
  if truthy token then setA headers "Authorization" ("Bearer " ++ token.getD "") else headers

/-! ### Helper lemmas: circuit breaker -/

theorem call_not_open {ε α : Type} (cb : CircuitBreaker) (now : Int) (op : Except ε α)
    (h : cb.state ≠ CircuitBreakerState.OPEN) :
    CircuitBreaker.call cb now op = CircuitBreaker.callAttempt cb now op := by
  simp [CircuitBreaker.call, h]

theorem on_failure_fields (cb : CircuitBreaker) (t : Int) :
    (CircuitBreaker._on_failure cb t).failure_threshold = cb.failure_threshold ∧
    (CircuitBreaker._on_failure cb t).recovery_timeout = cb.recovery_timeout ∧
    (CircuitBreaker._on_failure cb t).stats.failure_count = cb.stats.failure_count + 1 ∧
    (CircuitBreaker._on_failure cb t).stats.last_failure_time = t := by
  simp only [CircuitBreaker._on_failure]
  split <;> simp

/-- Iterated failed calls from a Closed breaker whose counter is short of
the threshold by exactly the number of calls: the breaker ends Open with
`failure_count = failure_threshold`, and the static configuration fields
are untouched. -/
theorem failSeq_closed_opens (e : String) :
    ∀ (ts : List Int) (cb : CircuitBreaker),
      cb.state = CircuitBreakerState.CLOSED →
      cb.stats.failure_count + ts.length = cb.failure_threshold →
      ts ≠ [] →
      (CircuitBreaker.failSeq e cb ts).state = CircuitBreakerState.OPEN ∧
      (CircuitBreaker.failSeq e cb ts).stats.failure_count = cb.failure_threshold ∧
      (CircuitBreaker.failSeq e cb ts).failure_threshold = cb.failure_threshold ∧
      (CircuitBreaker.failSeq e cb ts).recovery_timeout = cb.recovery_timeout := by
  intro ts
  induction ts with
  | nil => intro cb _ _ h; exact absurd rfl h
  | cons t rest ih =>
      intro cb hst hsum _
      have hne : cb.state ≠ CircuitBreakerState.OPEN := by rw [hst]; intro h; cases h
      have hstep : CircuitBreaker.failSeq e cb (t :: rest)
          = CircuitBreaker.failSeq e (CircuitBreaker._on_failure cb t) rest := by
        simp [CircuitBreaker.failSeq, call_not_open cb t _ hne, CircuitBreaker.callAttempt]
      rw [hstep]
      rcases rest with _ | ⟨r, rs⟩
      · -- last failure: the counter reaches the threshold and the breaker opens
        have hcond : cb.failure_threshold ≤ cb.stats.failure_count + 1 ∧
            cb.state = CircuitBreakerState.CLOSED := by
          constructor
          · simp at hsum; omega
          · exact hst
        simp only [CircuitBreaker.failSeq, CircuitBreaker._on_failure, if_pos hcond]
        simp at hsum ⊢
        omega
      · -- intermediate failure: strictly below the threshold, stays Closed
        have hlt : ¬ (cb.failure_threshold ≤ cb.stats.failure_count + 1 ∧
            cb.state = CircuitBreakerState.CLOSED) := by
          intro h
          have := h.1
          simp [List.length_cons] at hsum
          omega
        have hcb' : CircuitBreaker._on_failure cb t
            = { cb with stats := { cb.stats with
                  failure_count := cb.stats.failure_count + 1
                  total_requests := cb.stats.total_requests + 1
                  last_failure_time := t } } := by
          simp only [CircuitBreaker._on_failure, if_neg hlt]
        rw [hcb']
        have hres := ih { cb with stats := { cb.stats with
            failure_count := cb.stats.failure_count + 1
            total_requests := cb.stats.total_requests + 1
            last_failure_time := t } } (by simpa using hst) (by simp at hsum ⊢; omega)
            (by intro h; cases h)
        simpa using hres

/-- C1 [code_bug evidence]: a Half-Open breaker whose probe call fails is
left Half-Open by the code (`_on_failure` transitions to Open only from
Closed), while the spec requires Half-Open → Open on a failed probe.
Evaluated at a concrete Half-Open breaker (threshold 5, counter 5) whose
protected operation raises at time 100: the error is re-raised but the
state after `call` is still HALF_OPEN, not OPEN. -/
theorem half_open_probe_failure_leaves_breaker_half_open :
    (CircuitBreaker.call (α := Unit)
        { failure_threshold := 5, recovery_timeout := 60, expected_recovery_time := 30
          name := "auth", state := CircuitBreakerState.HALF_OPEN
          stats := { failure_count := 5, success_count := 0, last_failure_time := 0
                     last_success_time := 0, total_requests := 5 } }
        100 (Except.error "boom")).fst.state = CircuitBreakerState.HALF_OPEN ∧
    (CircuitBreaker.call (α := Unit)
        { failure_threshold := 5, recovery_timeout := 60, expected_recovery_time := 30
          name := "auth", state := CircuitBreakerState.HALF_OPEN
          stats := { failure_count := 5, success_count := 0, last_failure_time := 0
                     last_success_time := 0, total_requests := 5 } }
        100 (Except.error "boom")).snd.snd = CallOut.raised "boom" ∧
    CircuitBreakerState.HALF_OPEN ≠ CircuitBreakerState.OPEN := by
  refine ⟨rfl, rfl, ?_⟩
  intro h
  cases h

/-- C2: a breaker starting Closed with a zero failure counter reaches the
Open state after `failure_threshold` consecutive failed calls, and any
`call` made before `recovery_timeout` has elapsed since the last failure
is rejected with `CircuitBreakerOpenException` without invoking the
protected operation and without changing the breaker's state or any of
its counters (the whole breaker is returned unchanged). -/
theorem closed_breaker_threshold_failures_open_then_fast_fail
    (cb : CircuitBreaker) (ts : List Int) (now : Int) (e : String) (op : Except String Unit)
    (hstate : cb.state = CircuitBreakerState.CLOSED)
    (hfc : cb.stats.failure_count = 0)
    (hlen : ts.length = cb.failure_threshold)
    (hpos : 1 ≤ cb.failure_threshold)
    (hnow : now - (CircuitBreaker.failSeq e cb ts).stats.last_failure_time
      < cb.recovery_timeout) :
    (CircuitBreaker.failSeq e cb ts).state = CircuitBreakerState.OPEN ∧
    CircuitBreaker.call (CircuitBreaker.failSeq e cb ts) now op
      = (CircuitBreaker.failSeq e cb ts, 0, CallOut.rejected) := by
  have hne : ts ≠ [] := by
    intro h
    rw [h] at hlen
    simp at hlen
    omega
  have hres := failSeq_closed_opens e ts cb hstate (by omega) hne
  refine ⟨hres.1, ?_⟩
  have hnoreset : (CircuitBreaker.failSeq e cb ts)._should_attempt_reset now = false := by
    simp only [CircuitBreaker._should_attempt_reset, decide_eq_false_iff_not, not_le]
    rw [hres.2.2.2]
    omega
  simp [CircuitBreaker.call, hres.1, hnoreset]

/-- C3: a breaker in the Open state, called once at least
`recovery_timeout` after the last failure, moves to Half-Open and invokes
the protected operation exactly once; when that operation succeeds the
final state is Closed with `failure_count = 0` and the operation's result
is returned. -/
theorem open_breaker_elapsed_probe_once_and_close_on_success
    (cb : CircuitBreaker) (now : Int) (op : Except String Unit)
    (hstate : cb.state = CircuitBreakerState.OPEN)
    (helapsed : cb.recovery_timeout ≤ now - cb.stats.last_failure_time) :
    (CircuitBreaker.call cb now op).snd.fst = 1 ∧
    ∀ a, op = Except.ok a →
      (CircuitBreaker.call cb now op).fst.state = CircuitBreakerState.CLOSED ∧
      (CircuitBreaker.call cb now op).fst.stats.failure_count = 0 ∧
      (CircuitBreaker.call cb now op).snd.snd = CallOut.returned a := by
  have hreset : cb._should_attempt_reset now = true := by
    simp [CircuitBreaker._should_attempt_reset, helapsed]
  have hcall : CircuitBreaker.call cb now op
      = CircuitBreaker.callAttempt { cb with state := CircuitBreakerState.HALF_OPEN } now op := by
    simp [CircuitBreaker.call, hstate, hreset]
  constructor
  · rw [hcall]
    cases op <;> simp [CircuitBreaker.callAttempt]
  · intro a ha
    subst ha
    rw [hcall]
    simp [CircuitBreaker.callAttempt, CircuitBreaker._on_success]

/-- Witness for C2 at threshold 1, one failed call at time 5, probe call at
time 10 (5 seconds into the 60-second recovery window). -/
theorem closed_breaker_threshold_failures_open_then_fast_fail_witness :
    (CircuitBreaker.failSeq "boom" (CircuitBreaker.mk0 1 60 30 "auth") [5]).state
      = CircuitBreakerState.OPEN ∧
    CircuitBreaker.call (CircuitBreaker.failSeq "boom" (CircuitBreaker.mk0 1 60 30 "auth") [5])
        10 (Except.ok (ε := String) ())
      = (CircuitBreaker.failSeq "boom" (CircuitBreaker.mk0 1 60 30 "auth") [5], 0,
         CallOut.rejected) :=
  closed_breaker_threshold_failures_open_then_fast_fail
    (CircuitBreaker.mk0 1 60 30 "auth") [5] 10 "boom" (Except.ok ())
    rfl rfl rfl (by decide) (by decide)

/-- Witness for C3: an Open breaker with last failure at time 0 and a
60-second recovery timeout, probed successfully at time 60. -/
theorem open_breaker_elapsed_probe_once_and_close_on_success_witness :
    (CircuitBreaker.call
        { failure_threshold := 5, recovery_timeout := 60, expected_recovery_time := 30
          name := "auth", state := CircuitBreakerState.OPEN
          stats := { failure_count := 5, success_count := 0, last_failure_time := 0
                     last_success_time := 0, total_requests := 5 } }
        60 (Except.ok (ε := String) ())).snd.fst = 1 ∧
    (CircuitBreaker.call
        { failure_threshold := 5, recovery_timeout := 60, expected_recovery_time := 30
          name := "auth", state := CircuitBreakerState.OPEN
          stats := { failure_count := 5, success_count := 0, last_failure_time := 0
                     last_success_time := 0, total_requests := 5 } }
        60 (Except.ok (ε := String) ())).fst.state = CircuitBreakerState.CLOSED ∧
    (CircuitBreaker.call
        { failure_threshold := 5, recovery_timeout := 60, expected_recovery_time := 30
          name := "auth", state := CircuitBreakerState.OPEN
          stats := { failure_count := 5, success_count := 0, last_failure_time := 0
                     last_success_time := 0, total_requests := 5 } }
        60 (Except.ok (ε := String) ())).fst.stats.failure_count = 0 :=
  have h := open_breaker_elapsed_probe_once_and_close_on_success
    { failure_threshold := 5, recovery_timeout := 60, expected_recovery_time := 30
      name := "auth", state := CircuitBreakerState.OPEN
      stats := { failure_count := 5, success_count := 0, last_failure_time := 0
                 last_success_time := 0, total_requests := 5 } }
    60 (Except.ok ()) rfl (by decide)
  ⟨h.1, (h.2 () rfl).1, (h.2 () rfl).2.1⟩

/-! ### Helper lemmas: proxy -/

theorem on_success_fc_le (cb : CircuitBreaker) (now : Int) :
    (CircuitBreaker._on_success cb now).stats.failure_count ≤ cb.stats.failure_count := by
  simp only [CircuitBreaker._on_success]
  split <;> simp

/-- When the breaker does not fast-reject, a successful operation goes
through `_on_success` applied to a breaker with the caller's statistics. -/
theorem call_ok_shape {ε α : Type} (cb : CircuitBreaker) (now : Int) (a : α)
    (hpass : ¬ (cb.state = CircuitBreakerState.OPEN ∧ cb._should_attempt_reset now = false)) :
    ∃ cb₁ : CircuitBreaker, cb₁.stats = cb.stats ∧
      CircuitBreaker.call (ε := ε) cb now (Except.ok a)
        = (CircuitBreaker._on_success cb₁ now, 1, CallOut.returned a) := by
  by_cases hO : cb.state = CircuitBreakerState.OPEN
  · have hreset : cb._should_attempt_reset now = true := by
      rcases Bool.eq_false_or_eq_true (cb._should_attempt_reset now) with h | h
      · exact h
      · exact absurd ⟨hO, h⟩ hpass
    exact ⟨{ cb with state := CircuitBreakerState.HALF_OPEN }, rfl,
      by simp [CircuitBreaker.call, hO, hreset, CircuitBreaker.callAttempt]⟩
  · exact ⟨cb, rfl, by simp [call_not_open cb now _ hO, CircuitBreaker.callAttempt]⟩

/-- When the breaker does not fast-reject, a failing operation goes
through `_on_failure` applied to a breaker with the caller's statistics. -/
theorem call_error_shape {ε α : Type} (cb : CircuitBreaker) (now : Int) (e : ε)
    (hpass : ¬ (cb.state = CircuitBreakerState.OPEN ∧ cb._should_attempt_reset now = false)) :
    ∃ cb₁ : CircuitBreaker, cb₁.stats = cb.stats ∧
      CircuitBreaker.call (α := α) cb now (Except.error e)
        = (CircuitBreaker._on_failure cb₁ now, 1, CallOut.raised e) := by
  by_cases hO : cb.state = CircuitBreakerState.OPEN
  · have hreset : cb._should_attempt_reset now = true := by
      rcases Bool.eq_false_or_eq_true (cb._should_attempt_reset now) with h | h
      · exact h
      · exact absurd ⟨hO, h⟩ hpass
    exact ⟨{ cb with state := CircuitBreakerState.HALF_OPEN }, rfl,
      by simp [CircuitBreaker.call, hO, hreset, CircuitBreaker.callAttempt]⟩
  · exact ⟨cb, rfl, by simp [call_not_open cb now _ hO, CircuitBreaker.callAttempt]⟩

/-- C4: when the backend answers with any HTTP status (4xx/5xx included),
`proxy_request` returns exactly that status and body, exactly one backend
attempt is made, and the breaker's `failure_count` is not incremented
(only unreachability/timeout failures, which raise, reach `_on_failure`). -/
theorem backend_status_passthrough_does_not_count_failure
    (services : List (String × ServiceConfig)) (service_name : String) (cfg : ServiceConfig)
    (cb : CircuitBreaker) (now : Int) (r : BackendResponse)
    (hcfg : lookupA services service_name = some cfg)
    (hpass : ¬ (cb.state = CircuitBreakerState.OPEN ∧ cb._should_attempt_reset now = false)) :
    (proxy_request services service_name cb now (Except.ok r)).fst
      = ProxyResult.response r.status_code r.content ∧
    (proxy_request services service_name cb now (Except.ok r)).snd.snd = 1 ∧
    (proxy_request services service_name cb now (Except.ok r)).snd.fst.stats.failure_count
      ≤ cb.stats.failure_count := by
  obtain ⟨cb₁, hstats, hcall⟩ := call_ok_shape (ε := UpstreamExc) cb now
    ({ status_code := r.status_code, content := r.content } : BackendResponse) hpass
  have hmr : _make_request (Except.ok r)
      = Except.ok ({ status_code := r.status_code, content := r.content } : BackendResponse) := rfl
  simp only [proxy_request, hcfg, hmr, hcall]
  refine ⟨trivial, trivial, ?_⟩
  calc (CircuitBreaker._on_success cb₁ now).stats.failure_count
      ≤ cb₁.stats.failure_count := on_success_fc_le cb₁ now
    _ = cb.stats.failure_count := by rw [hstats]

/-- Witness for C4: a configured service, a fresh Closed breaker, and a
backend 404 with a JSON body are passed through unchanged. -/
theorem backend_status_passthrough_does_not_count_failure_witness :
    (proxy_request
        [("auth", { name := "auth", url := "http://auth:8000", health_path := "/health"
                    timeout := 30 })] "auth"
        (CircuitBreaker.mk0 5 60 30 "auth") 0
        (Except.ok { status_code := 404, content := "not found" })).fst
      = ProxyResult.response 404 "not found" ∧
    (proxy_request
        [("auth", { name := "auth", url := "http://auth:8000", health_path := "/health"
                    timeout := 30 })] "auth"
        (CircuitBreaker.mk0 5 60 30 "auth") 0
        (Except.ok { status_code := 404, content := "not found" })).snd.snd = 1 ∧
    (proxy_request
        [("auth", { name := "auth", url := "http://auth:8000", health_path := "/health"
                    timeout := 30 })] "auth"
        (CircuitBreaker.mk0 5 60 30 "auth") 0
        (Except.ok { status_code := 404, content := "not found" })).snd.fst.stats.failure_count
      ≤ (CircuitBreaker.mk0 5 60 30 "auth").stats.failure_count :=
  backend_status_passthrough_does_not_count_failure
    [("auth", { name := "auth", url := "http://auth:8000", health_path := "/health"
                timeout := 30 })] "auth"
    { name := "auth", url := "http://auth:8000", health_path := "/health", timeout := 30 }
    (CircuitBreaker.mk0 5 60 30 "auth") 0 { status_code := 404, content := "not found" }
    (by decide) (by decide)

/-- C5: `proxy_request` translates each failure class into exactly one
gateway status: a breaker fast-rejection (`CircuitBreakerOpenException`)
into 503 with no backend attempt; an upstream timeout into 504 with the
breaker's `failure_count` incremented; an upstream connection failure
into 503; and any other exception into 502 carrying its message. -/
theorem proxy_failure_translation
    (services : List (String × ServiceConfig)) (service_name : String) (cfg : ServiceConfig)
    (cb : CircuitBreaker) (now : Int)
    (hcfg : lookupA services service_name = some cfg) :
    (cb.state = CircuitBreakerState.OPEN → cb._should_attempt_reset now = false →
      ∀ backend, proxy_request services service_name cb now backend
        = (ProxyResult.httpError 503
            ("Service " ++ service_name ++ " is temporarily unavailable"), cb, 0)) ∧
    (¬ (cb.state = CircuitBreakerState.OPEN ∧ cb._should_attempt_reset now = false) →
      (proxy_request services service_name cb now (Except.error UpstreamExc.timeout)).fst
        = ProxyResult.httpError 504 ("Service " ++ service_name ++ " request timeout") ∧
      (proxy_request services service_name cb now
          (Except.error UpstreamExc.timeout)).snd.fst.stats.failure_count
        = cb.stats.failure_count + 1) ∧
    (¬ (cb.state = CircuitBreakerState.OPEN ∧ cb._should_attempt_reset now = false) →
      (proxy_request services service_name cb now (Except.error UpstreamExc.connectError)).fst
        = ProxyResult.httpError 503 ("Service " ++ service_name ++ " is unavailable")) ∧
    (∀ msg, ¬ (cb.state = CircuitBreakerState.OPEN ∧ cb._should_attempt_reset now = false) →
      (proxy_request services service_name cb now
          (Except.error (UpstreamExc.other msg))).fst
        = ProxyResult.httpError 502 ("Bad gateway: " ++ msg)) := by
  refine ⟨?_, ?_, ?_, ?_⟩
  · intro hO hreset backend
    have hrej : CircuitBreaker.call cb now (_make_request backend)
        = (cb, 0, CallOut.rejected) := by
      simp [CircuitBreaker.call, hO, hreset]
    simp [proxy_request, hcfg, hrej]
  · intro hpass
    obtain ⟨cb₁, hstats, hcall⟩ :=
      call_error_shape (α := BackendResponse) cb now UpstreamExc.timeout hpass
    have hmr : _make_request (Except.error UpstreamExc.timeout)
        = Except.error UpstreamExc.timeout := rfl
    simp only [proxy_request, hcfg, hmr, hcall]
    refine ⟨trivial, ?_⟩
    have := (on_failure_fields cb₁ now).2.2.1
    rw [this, hstats]
  · intro hpass
    obtain ⟨cb₁, hstats, hcall⟩ :=
      call_error_shape (α := BackendResponse) cb now UpstreamExc.connectError hpass
    have hmr : _make_request (Except.error UpstreamExc.connectError)
        = Except.error UpstreamExc.connectError := rfl
    simp only [proxy_request, hcfg, hmr, hcall]
  · intro msg hpass
    obtain ⟨cb₁, hstats, hcall⟩ :=
      call_error_shape (α := BackendResponse) cb now (UpstreamExc.other msg) hpass
    have hmr : _make_request (Except.error (UpstreamExc.other msg))
        = Except.error (UpstreamExc.other msg) := rfl
    simp only [proxy_request, hcfg, hmr, hcall]

/-- Witness for C5, timeout leg: a fresh Closed breaker, upstream timeout,
result 504 and the failure counter moves 0 → 1. -/
theorem proxy_failure_translation_witness :
    (proxy_request
        [("auth", { name := "auth", url := "http://auth:8000", health_path := "/health"
                    timeout := 30 })] "auth"
        (CircuitBreaker.mk0 5 60 30 "auth") 0 (Except.error UpstreamExc.timeout)).fst
      = ProxyResult.httpError 504 ("Service " ++ "auth" ++ " request timeout") ∧
    (proxy_request
        [("auth", { name := "auth", url := "http://auth:8000", health_path := "/health"
                    timeout := 30 })] "auth"
        (CircuitBreaker.mk0 5 60 30 "auth") 0
        (Except.error UpstreamExc.timeout)).snd.fst.stats.failure_count
      = (CircuitBreaker.mk0 5 60 30 "auth").stats.failure_count + 1 :=
  (proxy_failure_translation
    [("auth", { name := "auth", url := "http://auth:8000", health_path := "/health"
                timeout := 30 })] "auth"
    { name := "auth", url := "http://auth:8000", health_path := "/health", timeout := 30 }
    (CircuitBreaker.mk0 5 60 30 "auth") 0 (by decide)).2.1 (by decide)

/-- C6: a request naming a service absent from the gateway configuration
yields HTTP 404, makes zero backend attempts, and leaves the breaker (and
hence every failure counter) untouched. -/
theorem unknown_service_404_no_network
    (services : List (String × ServiceConfig)) (service_name : String)
    (cb : CircuitBreaker) (now : Int) (backend : Except UpstreamExc BackendResponse)
    (h : lookupA services service_name = none) :
    proxy_request services service_name cb now backend
      = (ProxyResult.httpError 404 ("Service " ++ service_name ++ " not found"), cb, 0) := by
  simp [proxy_request, h]

/-- Witness for C6: an empty gateway configuration and a 200-capable
backend that is never contacted. -/
theorem unknown_service_404_no_network_witness :
    proxy_request [] "nope" (CircuitBreaker.mk0 5 60 30 "nope") 0
        (Except.ok { status_code := 200, content := "ok" })
      = (ProxyResult.httpError 404 ("Service " ++ "nope" ++ " not found"),
         CircuitBreaker.mk0 5 60 30 "nope", 0) :=
  unknown_service_404_no_network [] "nope" (CircuitBreaker.mk0 5 60 30 "nope") 0
    (Except.ok { status_code := 200, content := "ok" }) rfl

/-! ### Helper lemmas: discovery round robin -/

theorem lookupA_setA_self {β : Type} (l : List (String × β)) (k : String) (v : β) :
    lookupA (setA l k v) k = some v := by
  induction l with
  | nil => simp [setA, lookupA]
  | cons p rest ih =>
      by_cases h : p.fst = k
      · simp [setA, h, lookupA]
      · simp [setA, h, lookupA, ih]

/-- One `get_service_instance` lookup under `round_robin` with every
instance healthy: it selects index `counter % length` and bumps the
counter keyed by the first instance's name. -/
theorem get_service_instance_round_robin_step (sd : ServiceDiscovery) (rnd : Nat)
    (service_name : String) (insts : List ServiceInstance) (first : ServiceInstance)
    (hsvc : lookupD sd.services service_name [] = insts)
    (hhealthy : ∀ i ∈ insts, i.is_healthy = true)
    (hhead : insts.head? = some first) :
    sd.get_service_instance "round_robin" rnd service_name
      = (insts.get? (lookupD sd.round_robin_counters first.name 0 % insts.length),
         { sd with round_robin_counters := setA sd.round_robin_counters first.name (lookupD sd.round_robin_counters first.name 0 + 1) }) := by
  have hfilter : insts.filter (fun i => i.is_healthy) = insts :=
    List.filter_eq_self.mpr hhealthy
  have hne : insts.isEmpty = false := by
    cases insts
    · simp at hhead
    · rfl
  simp [ServiceDiscovery.get_service_instance, hsvc, hfilter, hne,
        ServiceDiscovery._round_robin_selection, hhead]

/-- The selections of `k` consecutive round-robin lookups, all instances
healthy: indices `counter, counter+1, …` modulo the instance count. -/
theorem getInstanceSeq_round_robin (rnd : Nat) (service_name : String)
    (insts : List ServiceInstance) (first : ServiceInstance)
    (hhealthy : ∀ i ∈ insts, i.is_healthy = true)
    (hhead : insts.head? = some first) :
    ∀ (k : Nat) (sd : ServiceDiscovery), lookupD sd.services service_name [] = insts →
      (ServiceDiscovery.getInstanceSeq sd "round_robin" rnd service_name k).fst
        = (List.range k).map (fun j =>
            insts.get? ((lookupD sd.round_robin_counters first.name 0 + j) % insts.length)) := by
  intro k
  induction k with
  | zero => intro sd _; simp [ServiceDiscovery.getInstanceSeq]
  | succ n ih =>
      intro sd hsvc
      have hstep := get_service_instance_round_robin_step sd rnd service_name insts first
        hsvc hhealthy hhead
      have hsvc' : lookupD
          ({ sd with round_robin_counters := setA sd.round_robin_counters first.name (lookupD sd.round_robin_counters first.name 0 + 1) } :
            ServiceDiscovery).services service_name [] = insts := hsvc
      have hrest := ih { sd with round_robin_counters := setA sd.round_robin_counters first.name (lookupD sd.round_robin_counters first.name 0 + 1) } hsvc'
      have hcount' : lookupD (setA sd.round_robin_counters first.name
          (lookupD sd.round_robin_counters first.name 0 + 1)) first.name 0
          = lookupD sd.round_robin_counters first.name 0 + 1 := by
        simp [lookupD, lookupA_setA_self]
      simp only [ServiceDiscovery.getInstanceSeq, hstep]
      rw [hrest]
      simp only [hcount']
      rw [List.range_succ_eq_map, List.map_cons, List.map_map]
      have harith : ∀ j : Nat,
          (lookupD sd.round_robin_counters first.name 0 + 1 + j) % insts.length
            = (lookupD sd.round_robin_counters first.name 0 + Nat.succ j) % insts.length := by
        intro j
        congr 1
        omega
      simp [Function.comp, harith]

/-- C7: with `N ≥ 1` healthy instances under `round_robin`, `N`
consecutive selections are a permutation of the instance list (each
instance exactly once), and the `(N+1)`-th selection equals the first
(counter wrap). -/
theorem round_robin_cycles_through_all_instances
    (sd : ServiceDiscovery) (rnd : Nat) (service_name : String)
    (insts : List ServiceInstance) (N : Nat)
    (hsvc : lookupD sd.services service_name [] = insts)
    (hhealthy : ∀ i ∈ insts, i.is_healthy = true)
    (hN : insts.length = N) (hpos : 1 ≤ N) :
    ((ServiceDiscovery.getInstanceSeq sd "round_robin" rnd service_name (N + 1)).fst.take N).Perm
      (insts.map some) ∧
    (ServiceDiscovery.getInstanceSeq sd "round_robin" rnd service_name (N + 1)).fst.get? N
      = (ServiceDiscovery.getInstanceSeq sd "round_robin" rnd service_name (N + 1)).fst.get? 0 := by
  have hzero : 0 < N := hpos
  have hne : insts ≠ [] := by
    intro h
    rw [h] at hN
    simp at hN
    omega
  obtain ⟨first, hhead⟩ : ∃ first, insts.head? = some first := by
    cases insts
    · exact absurd rfl hne
    · exact ⟨_, rfl⟩
  have hseq := getInstanceSeq_round_robin rnd service_name insts first hhealthy hhead
    (N + 1) sd hsvc
  rw [hN] at hseq
  rw [hseq]
  set c := lookupD sd.round_robin_counters first.name 0 with hc
  have hflen : ∀ m : Nat, m < N → insts.get? ((c + m) % N) = some (insts.get
      ⟨(c + m) % N, by rw [hN]; exact Nat.mod_lt _ hzero⟩) := by
    intro m _
    exact List.get?_eq_get _
  constructor
  · -- the first N selections equal `(insts.map some).rotate c`, a permutation
    have htake : ((List.range (N + 1)).map (fun j => insts.get? ((c + j) % N))).take N
        = (List.range N).map (fun j => insts.get? ((c + j) % N)) := by
      rw [← List.map_take, List.take_range]
      congr 1
      congr 1
      omega
    rw [htake]
    have heq : (List.range N).map (fun j => insts.get? ((c + j) % N))
        = (insts.map some).rotate c := by
      apply List.ext_get?_iff.mpr
      intro m
      by_cases hm : m < N
      · rw [List.get?_map, List.get?_range hm]
        have hmlt : m < (insts.map some).length := by simp [hN]; exact hm
        rw [List.get?_rotate hmlt]
        rw [List.get?_map]
        have hq : (m + c) % (insts.map some).length = (c + m) % N := by
          simp [hN]
          congr 1
          omega
        rw [hq]
        have hqlt : (c + m) % N < N := Nat.mod_lt _ hzero
        have hqlt' : (c + m) % N < insts.length := by rw [hN]; exact hqlt
        rw [List.get?_eq_get hqlt']
        simp
      · have h1 : ((List.range N).map (fun j => insts.get? ((c + j) % N))).get? m = none := by
          apply List.get?_eq_none.mpr
          simp
          omega
        have h2 : ((insts.map some).rotate c).get? m = none := by
          apply List.get?_eq_none.mpr
          simp [hN]
          omega
        rw [h1, h2]
    rw [heq]
    exact List.rotate_perm (insts.map some) c
  · rw [List.get?_map, List.get?_map, List.get?_range (by omega), List.get?_range (by omega)]
    have harith : (c + N) % N = (c + 0) % N := by
      rw [Nat.add_mod_right, Nat.add_zero]
    simp [harith]

/-- Two healthy instances of one service for the round-robin witness. -/
def rrInstA : ServiceInstance :=
  { name := "auth", url := "http://auth-1:8000", health_path := "/health"
    last_health_check := 0, is_healthy := true, response_time := 2, failure_count := 0 }

def rrInstB : ServiceInstance := { rrInstA with url := "http://auth-2:8000" }

def rrSd : ServiceDiscovery :=
  { services := [("auth", [rrInstA, rrInstB])], max_failures := 3, round_robin_counters := [] }

/-- Witness for C7 with `N = 2`: three consecutive selections; the first
two are a permutation of the two instances and the third wraps to the
first. -/
theorem round_robin_cycles_through_all_instances_witness :
    ((ServiceDiscovery.getInstanceSeq rrSd "round_robin" 0 "auth" 3).fst.take 2).Perm
      ([rrInstA, rrInstB].map some) ∧
    (ServiceDiscovery.getInstanceSeq rrSd "round_robin" 0 "auth" 3).fst.get? 2
      = (ServiceDiscovery.getInstanceSeq rrSd "round_robin" 0 "auth" 3).fst.get? 0 :=
  round_robin_cycles_through_all_instances rrSd 0 "auth" [rrInstA, rrInstB] 2
    (by decide) (by decide) (by decide) (by decide)

/-! ### Helper lemmas: least-response-time selection -/

/-- Python `min(instances, key=...)` as the source's fold: the result is a
member attaining the minimal `response_time`. -/
theorem foldl_min_response_time :
    ∀ (xs : List ServiceInstance) (x : ServiceInstance),
      (xs.foldl (fun acc i => if i.response_time < acc.response_time then i else acc) x)
        ∈ x :: xs ∧
      ∀ i ∈ x :: xs,
        (xs.foldl (fun acc i => if i.response_time < acc.response_time then i else acc)
          x).response_time ≤ i.response_time := by
  intro xs
  induction xs with
  | nil =>
      intro x
      constructor
      · simp
      · intro i hi
        simp at hi
        subst hi
        exact le_refl _
  | cons y ys ih =>
      intro x
      rw [List.foldl_cons]
      by_cases hyx : y.response_time < x.response_time
      · rw [if_pos hyx]
        obtain ⟨hmem, hmin⟩ := ih y
        constructor
        · rcases List.mem_cons.mp hmem with h | h
          · rw [h]
            simp
          · simp [h]
        · intro i hi
          have hrz := hmin y (List.mem_cons_self _ _)
          rcases List.mem_cons.mp hi with h | h
          · subst h
            exact le_trans hrz (le_of_lt hyx)
          · rcases List.mem_cons.mp h with h' | h'
            · subst h'
              exact hrz
            · exact hmin i (List.mem_cons_of_mem _ h')
      · rw [if_neg hyx]
        obtain ⟨hmem, hmin⟩ := ih x
        constructor
        · rcases List.mem_cons.mp hmem with h | h
          · rw [h]
            simp
          · simp [h]
        · intro i hi
          have hrz := hmin x (List.mem_cons_self _ _)
          rcases List.mem_cons.mp hi with h | h
          · subst h
            exact hrz
          · rcases List.mem_cons.mp h with h' | h'
            · subst h'
              exact le_trans hrz (le_of_not_lt hyx)
            · exact hmin i (List.mem_cons_of_mem _ h')

theorem least_response_time_selection_min (instances : List ServiceInstance)
    (hne : instances ≠ []) :
    ∃ m, ServiceDiscovery._least_response_time_selection instances = some m ∧ m ∈ instances ∧
      ∀ i ∈ instances, m.response_time ≤ i.response_time := by
  rcases instances with _ | ⟨x, xs⟩
  · exact absurd rfl hne
  · obtain ⟨hmem, hmin⟩ := foldl_min_response_time xs x
    exact ⟨_, rfl, hmem, hmin⟩

/-- Two healthy instances with different observed response times. -/
def lrInstSlow : ServiceInstance :=
  { name := "auth", url := "http://auth-1:8000", health_path := "/health"
    last_health_check := 0, is_healthy := true, response_time := 5, failure_count := 0 }

def lrInstFast : ServiceInstance := { lrInstSlow with url := "http://auth-2:8000", response_time := 1 }

def lrSd : ServiceDiscovery :=
  { services := [("auth", [lrInstSlow, lrInstFast])], max_failures := 3
    round_robin_counters := [] }

/-- C8 counterexample: with the configured strategy string exactly
`"least_response_time"`, `get_service_instance` returns the first healthy
instance (response time 5) although a healthy instance with response time
1 exists — the code dispatches least-response-time selection on the
strategy string `"least_connections"`, and an unrecognised string falls
into the default first-healthy branch. -/
theorem least_response_time_policy_name_counterexample :
    (lrSd.get_service_instance "least_response_time" 0 "auth").fst = some lrInstSlow ∧
    lrInstFast ∈ lookupD lrSd.services "auth" [] ∧
    lrInstFast.is_healthy = true ∧
    lrInstFast.response_time < lrInstSlow.response_time := by
  decide

/-- C8 amended: `get_service_instance` returns `none` when the service has
no instances; the first known instance regardless of health when no
instance is healthy; otherwise a member of the healthy list under every
strategy string, and under `"least_connections"` — the string that
dispatches `_least_response_time_selection` (the string
`"least_response_time"` is unrecognised and falls back to the first
healthy instance) — a healthy instance with the lowest observed response
time. -/
theorem get_instance_policy_selection
    (sd : ServiceDiscovery) (strategy : String) (rnd : Nat) (service_name : String) :
    (lookupD sd.services service_name [] = [] →
      (sd.get_service_instance strategy rnd service_name).fst = none) ∧
    ((lookupD sd.services service_name []).filter (fun i => i.is_healthy) = [] →
      (sd.get_service_instance strategy rnd service_name).fst
        = (lookupD sd.services service_name []).head?) ∧
    ((lookupD sd.services service_name []).filter (fun i => i.is_healthy) ≠ [] →
      ∃ i, i ∈ (lookupD sd.services service_name []).filter (fun i => i.is_healthy) ∧
        (sd.get_service_instance strategy rnd service_name).fst = some i) ∧
    ((lookupD sd.services service_name []).filter (fun i => i.is_healthy) ≠ [] →
      strategy = "least_connections" →
      ∃ m, (sd.get_service_instance strategy rnd service_name).fst = some m ∧
        m ∈ (lookupD sd.services service_name []).filter (fun i => i.is_healthy) ∧
        ∀ i ∈ (lookupD sd.services service_name []).filter (fun i => i.is_healthy),
          m.response_time ≤ i.response_time) := by
  refine ⟨?_, ?_, ?_, ?_⟩
  · intro hnil
    simp [ServiceDiscovery.get_service_instance, hnil]
  · intro hnone
    simp [ServiceDiscovery.get_service_instance, hnone]
  · intro hne
    have hpos : 0 < ((lookupD sd.services service_name []).filter
        (fun i => i.is_healthy)).length := List.length_pos.mpr hne
    have hempty : ((lookupD sd.services service_name []).filter
        (fun i => i.is_healthy)).isEmpty = false := by
      rcases h : (lookupD sd.services service_name []).filter (fun i => i.is_healthy) with _ | _
      · exact absurd h hne
      · rw [h]
        rfl
    simp only [ServiceDiscovery.get_service_instance, hempty, Bool.false_eq_true, if_false]
    by_cases hrr : strategy = "round_robin"
    · rw [if_pos hrr]
      simp only [ServiceDiscovery._round_robin_selection]
      rcases hh : ((lookupD sd.services service_name []).filter
          (fun i => i.is_healthy)).head? with _ | first
      · rw [List.head?_eq_none_iff] at hh
        exact absurd hh hne
      · rw [hh]
        have hidx : lookupD sd.round_robin_counters first.name 0
            % ((lookupD sd.services service_name []).filter (fun i => i.is_healthy)).length
            < ((lookupD sd.services service_name []).filter (fun i => i.is_healthy)).length :=
          Nat.mod_lt _ hpos
        exact ⟨_, List.get_mem _ _ hidx, List.get?_eq_get hidx⟩
    · rw [if_neg hrr]
      by_cases hlc : strategy = "least_connections"
      · rw [if_pos hlc]
        obtain ⟨m, hm, hmem, _⟩ := least_response_time_selection_min
          ((lookupD sd.services service_name []).filter (fun i => i.is_healthy)) hne
        exact ⟨m, hmem, hm⟩
      · rw [if_neg hlc]
        by_cases hrnd : strategy = "random"
        · rw [if_pos hrnd]
          simp only [ServiceDiscovery._random_selection]
          have hidx : rnd
              % ((lookupD sd.services service_name []).filter (fun i => i.is_healthy)).length
              < ((lookupD sd.services service_name []).filter (fun i => i.is_healthy)).length :=
            Nat.mod_lt _ hpos
          exact ⟨_, List.get_mem _ _ hidx, List.get?_eq_get hidx⟩
        · rw [if_neg hrnd]
          rcases hh : ((lookupD sd.services service_name []).filter
              (fun i => i.is_healthy)).head? with _ | first
          · rw [List.head?_eq_none_iff] at hh
            exact absurd hh hne
          · exact ⟨first, List.mem_of_mem_head? (by rw [hh]; exact rfl), hh⟩
  · intro hne hlc
    have hempty : ((lookupD sd.services service_name []).filter
        (fun i => i.is_healthy)).isEmpty = false := by
      rcases h : (lookupD sd.services service_name []).filter (fun i => i.is_healthy) with _ | _
      · exact absurd h hne
      · rw [h]
        rfl
    have hnotrr : ¬ strategy = "round_robin" := by
      rw [hlc]
      decide
    simp only [ServiceDiscovery.get_service_instance, hempty, Bool.false_eq_true, if_false]
    rw [if_neg hnotrr, if_pos hlc]
    obtain ⟨m, hm, hmem, hmin⟩ := least_response_time_selection_min
      ((lookupD sd.services service_name []).filter (fun i => i.is_healthy)) hne
    exact ⟨m, hm, hmem, hmin⟩

/-- Witness for C8 (amended) at the concrete two-instance registry under
`"least_connections"`: the selected healthy instance attains the minimal
observed response time. -/
theorem get_instance_policy_selection_witness :
    ∃ m, (lrSd.get_service_instance "least_connections" 0 "auth").fst = some m ∧
      m ∈ (lookupD lrSd.services "auth" []).filter (fun i => i.is_healthy) ∧
      ∀ i ∈ (lookupD lrSd.services "auth" []).filter (fun i => i.is_healthy),
        m.response_time ≤ i.response_time :=
  (get_instance_policy_selection lrSd "least_connections" 0 "auth").2.2.2 (by decide) rfl

/-! ### Helper lemmas: health probes -/

/-- Invariant of a run of failed probes (report ≠ "healthy" or raised):
the failure counter accumulates and the health flag is exactly "counter
still below `max_failures`", provided the run does not overshoot the
threshold. -/
theorem probeSeq_all_failed_invariant (max_failures : Nat) :
    ∀ (ps : List (ProbeResult × Int × Int)) (inst : ServiceInstance),
      (∀ p ∈ ps, p.fst ≠ ProbeResult.healthy) →
      inst.failure_count + ps.length ≤ max_failures →
      inst.is_healthy = decide (inst.failure_count < max_failures) →
      (probeSeq max_failures inst ps).failure_count = inst.failure_count + ps.length ∧
      (probeSeq max_failures inst ps).is_healthy
        = decide (inst.failure_count + ps.length < max_failures) := by
  intro ps
  induction ps with
  | nil =>
      intro inst _ _ hh
      constructor
      · simp [probeSeq]
      · simpa [probeSeq] using hh
  | cons p rest ih =>
      intro inst hfail hle hh
      rcases p with ⟨pr, pnow, prt⟩
      have hlen : inst.failure_count + 1 + rest.length ≤ max_failures := by
        simp [List.length_cons] at hle
        omega
      cases pr with
      | healthy => exact absurd rfl (hfail _ (List.mem_cons_self _ _))
      | unhealthy =>
          have hstep : probeSeq max_failures inst ((ProbeResult.unhealthy, pnow, prt) :: rest)
              = probeSeq max_failures
                  (_health_check_instance max_failures inst pnow prt ProbeResult.unhealthy)
                  rest := rfl
          have hfc' : (_health_check_instance max_failures inst pnow prt
              ProbeResult.unhealthy).failure_count = inst.failure_count + 1 := by
            simp only [_health_check_instance]
            split <;> rfl
          have hh' : (_health_check_instance max_failures inst pnow prt
              ProbeResult.unhealthy).is_healthy
              = decide (inst.failure_count + 1 < max_failures) := by
            simp only [_health_check_instance]
            split
            · next hm =>
                have hnot : ¬ (inst.failure_count + 1 < max_failures) := by omega
                simp [hnot]
            · next hm =>
                have h1 : inst.failure_count + 1 < max_failures := by omega
                have h0 : inst.failure_count < max_failures := by omega
                rw [hh]
                simp [h1, h0]
          rw [hstep]
          obtain ⟨ihfc, ihh⟩ := ih (_health_check_instance max_failures inst pnow prt
            ProbeResult.unhealthy) (fun q hq => hfail q (List.mem_cons_of_mem _ hq))
            (by rw [hfc']; exact hlen) (by rw [hfc', hh'])
          rw [ihfc, ihh, hfc']
          constructor
          · simp [List.length_cons]
            omega
          · congr 1
            simp [List.length_cons]
            omega
      | exc =>
          have hstep : probeSeq max_failures inst ((ProbeResult.exc, pnow, prt) :: rest)
              = probeSeq max_failures
                  (_health_check_instance max_failures inst pnow prt ProbeResult.exc)
                  rest := rfl
          have hfc' : (_health_check_instance max_failures inst pnow prt
              ProbeResult.exc).failure_count = inst.failure_count + 1 := by
            simp only [_health_check_instance]
            split <;> rfl
          have hh' : (_health_check_instance max_failures inst pnow prt
              ProbeResult.exc).is_healthy
              = decide (inst.failure_count + 1 < max_failures) := by
            simp only [_health_check_instance]
            split
            · next hm =>
                have hnot : ¬ (inst.failure_count + 1 < max_failures) := by omega
                simp [hnot]
            · next hm =>
                have h1 : inst.failure_count + 1 < max_failures := by omega
                have h0 : inst.failure_count < max_failures := by omega
                rw [hh]
                simp [h1, h0]
          rw [hstep]
          obtain ⟨ihfc, ihh⟩ := ih (_health_check_instance max_failures inst pnow prt
            ProbeResult.exc) (fun q hq => hfail q (List.mem_cons_of_mem _ hq))
            (by rw [hfc']; exact hlen) (by rw [hfc', hh'])
          rw [ihfc, ihh, hfc']
          constructor
          · simp [List.length_cons]
            omega
          · congr 1
            simp [List.length_cons]
            omega

/-- C9: a healthy instance with a zero failure counter stays healthy
through fewer than `max_failures` consecutive failed probes, is marked
unhealthy exactly when `max_failures` consecutive failed probes have
accumulated, and a single successful probe marks any instance healthy
with its failure counter reset to 0. -/
theorem instance_unhealthy_after_max_consecutive_failures
    (max_failures : Nat) (inst : ServiceInstance) (ps : List (ProbeResult × Int × Int))
    (hmax : 1 ≤ max_failures)
    (hhealthy : inst.is_healthy = true) (hfc : inst.failure_count = 0)
    (hfail : ∀ p ∈ ps, p.fst ≠ ProbeResult.healthy) :
    (ps.length < max_failures → (probeSeq max_failures inst ps).is_healthy = true) ∧
    (ps.length = max_failures →
      (probeSeq max_failures inst ps).is_healthy = false ∧
      (probeSeq max_failures inst ps).failure_count = max_failures) ∧
    ∀ (j : ServiceInstance) (pnow prt : Int),
      (_health_check_instance max_failures j pnow prt ProbeResult.healthy).is_healthy = true ∧
      (_health_check_instance max_failures j pnow prt ProbeResult.healthy).failure_count = 0 := by
  have hh0 : inst.is_healthy = decide (inst.failure_count < max_failures) := by
    rw [hhealthy, hfc]
    have : 0 < max_failures := hmax
    simp [this]
  refine ⟨?_, ?_, ?_⟩
  · intro hlt
    obtain ⟨_, hh⟩ := probeSeq_all_failed_invariant max_failures ps inst hfail
      (by omega) hh0
    rw [hh, hfc]
    simp
    omega
  · intro heq
    obtain ⟨hcnt, hh⟩ := probeSeq_all_failed_invariant max_failures ps inst hfail
      (by omega) hh0
    constructor
    · rw [hh, hfc, heq]
      simp
    · rw [hcnt, hfc, heq]
      simp
  · intro j pnow prt
    exact ⟨rfl, rfl⟩

/-- A fresh healthy instance for the health-probe witness. -/
def hcInst : ServiceInstance :=
  { name := "auth", url := "http://auth-1:8000", health_path := "/health"
    last_health_check := 0, is_healthy := true, response_time := 0, failure_count := 0 }

/-- Witness for C9 with `max_failures = 3`: three consecutive failed
probes mark the instance unhealthy with counter 3, and a subsequent
successful probe restores health with counter 0. -/
theorem instance_unhealthy_after_max_consecutive_failures_witness :
    (probeSeq 3 hcInst [(ProbeResult.unhealthy, 30, 1), (ProbeResult.unhealthy, 60, 1),
        (ProbeResult.exc, 90, 1)]).is_healthy = false ∧
    (probeSeq 3 hcInst [(ProbeResult.unhealthy, 30, 1), (ProbeResult.unhealthy, 60, 1),
        (ProbeResult.exc, 90, 1)]).failure_count = 3 ∧
    (_health_check_instance 3 (probeSeq 3 hcInst [(ProbeResult.unhealthy, 30, 1),
        (ProbeResult.unhealthy, 60, 1), (ProbeResult.exc, 90, 1)]) 120 1
        ProbeResult.healthy).is_healthy = true ∧
    (_health_check_instance 3 (probeSeq 3 hcInst [(ProbeResult.unhealthy, 30, 1),
        (ProbeResult.unhealthy, 60, 1), (ProbeResult.exc, 90, 1)]) 120 1
        ProbeResult.healthy).failure_count = 0 :=
  have h := instance_unhealthy_after_max_consecutive_failures 3 hcInst
    [(ProbeResult.unhealthy, 30, 1), (ProbeResult.unhealthy, 60, 1), (ProbeResult.exc, 90, 1)]
    (by decide) rfl rfl (by decide)
  ⟨(h.2.1 rfl).1, (h.2.1 rfl).2,
   (h.2.2 (probeSeq 3 hcInst [(ProbeResult.unhealthy, 30, 1), (ProbeResult.unhealthy, 60, 1),
      (ProbeResult.exc, 90, 1)]) 120 1).1,
   (h.2.2 (probeSeq 3 hcInst [(ProbeResult.unhealthy, 30, 1), (ProbeResult.unhealthy, 60, 1),
      (ProbeResult.exc, 90, 1)]) 120 1).2⟩

/-! ### Helper lemmas: header dictionaries -/

theorem containsKey_cons {β : Type} (p : String × β) (rest : List (String × β)) (k : String) :
    containsKey (p :: rest) k = (decide (p.fst = k) || containsKey rest k) := by
  simp [containsKey]

theorem popA_cons_mem {β : Type} (p : String × β) (rest : List (String × β)) (k' : String)
    (hp : p.fst = k') : popA (p :: rest) k' = popA rest k' := by
  simp [popA, List.filter_cons, hp]

theorem popA_cons_ne {β : Type} (p : String × β) (rest : List (String × β)) (k' : String)
    (hp : p.fst ≠ k') : popA (p :: rest) k' = p :: popA rest k' := by
  simp [popA, List.filter_cons, hp]

theorem containsKey_popA {β : Type} (l : List (String × β)) (k k' : String) :
    containsKey (popA l k') k = (decide (k ≠ k') && containsKey l k) := by
  induction l with
  | nil => simp [popA, containsKey]
  | cons p rest ih =>
      by_cases hp : p.fst = k'
      · rw [popA_cons_mem p rest k' hp, ih, containsKey_cons]
        by_cases hk : k = k'
        · simp [hk]
        · have hpk : p.fst ≠ k := by
            rw [hp]
            exact fun h => hk h.symm
          simp [hk, hpk]
      · rw [popA_cons_ne p rest k' hp, containsKey_cons, containsKey_cons, ih]
        by_cases hk : k = k'
        · have hpk : p.fst ≠ k := by
            rw [hk]
            exact hp
          simp [hk, hpk, hp]
        · simp [hk]

theorem setA_cons_mem {β : Type} (p : String × β) (rest : List (String × β)) (k' : String)
    (v : β) (hp : p.fst = k') : setA (p :: rest) k' v = (k', v) :: rest := by
  simp [setA, hp]

theorem setA_cons_ne {β : Type} (p : String × β) (rest : List (String × β)) (k' : String)
    (v : β) (hp : p.fst ≠ k') : setA (p :: rest) k' v = p :: setA rest k' v := by
  simp [setA, hp]

theorem containsKey_setA {β : Type} (l : List (String × β)) (k k' : String) (v : β) :
    containsKey (setA l k' v) k = (containsKey l k || decide (k = k')) := by
  induction l with
  | nil =>
      by_cases hk : k = k'
      · subst hk
        simp [setA, containsKey]
      · have hk2 : ¬ k' = k := fun h => hk h.symm
        simp [setA, containsKey, hk, hk2]
  | cons p rest ih =>
      by_cases hp : p.fst = k'
      · rw [setA_cons_mem p rest k' v hp, containsKey_cons, containsKey_cons, hp]
        by_cases hk : k = k'
        · subst hk
          simp
        · have hk2 : ¬ k' = k := fun h => hk h.symm
          simp [hk, hk2]
      · rw [setA_cons_ne p rest k' v hp, containsKey_cons, containsKey_cons, ih]
        rw [Bool.or_assoc]

theorem containsKey_ite {β : Type} (c : Prop) [inst : Decidable c]
    (a b : List (String × β)) (k : String) :
    containsKey (if c then a else b) k = if c then containsKey a k else containsKey b k := by
  split <;> rfl

/-- C10: every inbound header other than the hop-by-hop set and
`content-length` is still present on the outbound request; the hop-by-hop
headers and `content-length` are absent from it; and an inbound
`Authorization: Bearer abc123` (with no overriding bearer token on the
request state) is forwarded as `Authorization: Bearer abc123` unchanged. -/
theorem proxy_headers_forwarding
    (inbound : List (String × String)) (client : Option String) (scheme : String)
    (request_id user_id bearer_token : Option String) :
    (∀ k, containsKey inbound k = true → k ∉ hop_by_hop_headers → k ≠ "content-length" →
      containsKey (_prepare_proxy_headers inbound client scheme request_id user_id
        bearer_token) k = true) ∧
    (∀ k, k ∈ hop_by_hop_headers ∨ k = "content-length" →
      containsKey (_prepare_proxy_headers inbound client scheme request_id user_id
        bearer_token) k = false) ∧
    (truthy bearer_token = false →
      lookupA inbound "authorization" = some "Bearer abc123" →
      lookupA (_prepare_proxy_headers inbound client scheme request_id user_id bearer_token)
        "Authorization" = some "Bearer abc123") := by
  refine ⟨?_, ?_, ?_⟩
  · intro k hin hhop hcl
    simp only [hop_by_hop_headers, List.mem_cons, List.not_mem_nil, or_false, not_or] at hhop
    obtain ⟨h1, h2, h3, h4, h5, h6, h7, h8⟩ := hhop
    simp only [_prepare_proxy_headers, hop_by_hop_headers, List.foldl_cons, List.foldl_nil,
               containsKey_ite, containsKey_setA, containsKey_popA]
    simp [h1, h2, h3, h4, h5, h6, h7, h8, hcl, hin]
  · intro k hk
    simp only [_prepare_proxy_headers, hop_by_hop_headers, List.foldl_cons, List.foldl_nil,
               containsKey_ite, containsKey_setA, containsKey_popA]
    rcases hk with hk | hk
    · simp only [hop_by_hop_headers, List.mem_cons, List.not_mem_nil, or_false] at hk
      rcases hk with hk | hk | hk | hk | hk | hk | hk | hk <;> subst hk <;> simp
    · subst hk
      simp
  · intro hb hauth
    have hsw : startsWithBearer "Bearer abc123" = true := by decide
    have hdrop : bearerToken "Bearer abc123" = "abc123" := by decide
    have htr : truthy (some "abc123") = true := by decide
    have happ : "Bearer " ++ "abc123" = "Bearer abc123" := by decide
    simp only [_prepare_proxy_headers, hb, hauth, hsw, hdrop, Bool.false_eq_true, if_false,
               if_true, htr]
    rw [lookupA_setA_self]
    simp [happ]

/-- Witness for C10: a request carrying host, authorization, connection
and content-length headers, no request-state overrides; the inbound
`Authorization: Bearer abc123` reaches the outbound headers unchanged. -/
theorem proxy_headers_forwarding_witness :
    lookupA (_prepare_proxy_headers
        [("host", "gw.example"), ("authorization", "Bearer abc123"),
         ("connection", "keep-alive"), ("content-length", "42")]
        (some "10.0.0.1") "http" none none none) "Authorization" = some "Bearer abc123" :=
  (proxy_headers_forwarding
      [("host", "gw.example"), ("authorization", "Bearer abc123"),
       ("connection", "keep-alive"), ("content-length", "42")]
      (some "10.0.0.1") "http" none none none).2.2 rfl (by decide)

end SandboxPlatform
